import Mathlib

/-!
Verification development for the PDF-invoice dashboard repository
(Express + Mongoose backend, Next.js frontend).

The definitions below are a shallow embedding of the JavaScript/TypeScript
source.  JavaScript runtime values are modelled by the inductive `JVal`
(numbers as rationals; the embedding carries no NaN value — `Number(...)`
coercion returns `Option ℚ` with `none` playing the role of NaN, which is
all the source ever observes of NaN: its falsiness).
-/

/-- A JavaScript runtime value as observed by the backend code:
`undefined`, `null`, booleans, (finite) numbers, strings, arrays, and
plain objects (ordered key/value lists, first occurrence of a key wins,
as produced by the JSON parser below). -/
inductive JVal : Type where
  | undef : JVal
  | null : JVal
  | bool : Bool → JVal
  | num : ℚ → JVal
  | str : String → JVal
  | arr : List JVal → JVal
  | obj : List (String × JVal) → JVal

namespace JVal

/-- JavaScript truthiness.  `undefined`, `null`, `false`, `0`, and `""`
are falsy; every array and object is truthy.  (NaN never occurs as a
`JVal`, see module comment.) -/
def truthy : JVal → Bool
  | undef => false
  | null => false
  | bool b => b
  | num q => q != 0
  | str s => s != ""
  | arr _ => true
  | obj _ => true

/-- JS disjunction `a || b`: `a` when truthy, else `b`. -/
def jsOr (a b : JVal) : JVal := if a.truthy then a else b

/-- First binding of `key` in an object body (JS object lookup; the
parser below already collapses duplicate keys, keeping the last value). -/
def objGet : List (String × JVal) → String → JVal
  | [], _ => undef
  | (k, v) :: rest, key => if k = key then v else objGet rest key

/-- Property access `x?.key` / `x.key`; any non-object (including
arrays, whose elements are index-keyed) yields `undefined` for the
identifier keys used by this codebase. -/
def getF : JVal → String → JVal
  | obj fs, key => objGet fs key
  | _, _ => undef

end JVal

/-! ### `Number(x)` coercion (`src/apps/api/src/routes/upload.ts` uses it
for every numeric field).  `none` models NaN. -/

/-- One character of a JS decimal numeral. -/
def digitVal (c : Char) : Option ℕ :=
  if c.isDigit then some (c.toNat - 48) else none

def digitsToNat (ds : List Char) : ℕ :=
  ds.foldl (fun acc c => acc * 10 + (c.toNat - 48)) 0

/-- Coercion `Number(s)` for a string, after trimming: empty → `0`; an optional
sign followed by a decimal numeral (integer part, optional fraction,
optional exponent, at least one digit overall) → its value; anything
else → NaN (`none`).  (The rarely-relevant `Infinity`/hex/octal/binary
literal forms are not representable as rationals / not produced by the
upstream AI responses and are conservatively mapped to NaN.) -/
def strToNumber (s : String) : Option ℚ :=
  let cs := ((s.toList.dropWhile Char.isWhitespace).reverse.dropWhile
    Char.isWhitespace).reverse
  if cs = [] then some 0
  else
    let (sign, cs) : ℚ × List Char :=
      match cs with
      | '-' :: rest => (-1, rest)
      | '+' :: rest => (1, rest)
      | rest => (1, rest)
    let intPart := cs.takeWhile Char.isDigit
    let cs1 := cs.dropWhile Char.isDigit
    let (fracPart, cs2) : List Char × List Char :=
      match cs1 with
      | '.' :: rest => (rest.takeWhile Char.isDigit, rest.dropWhile Char.isDigit)
      | rest => ([], rest)
    if intPart = [] ∧ fracPart = [] then none
    else
      let mantissa : ℚ := (digitsToNat intPart : ℚ) +
        (digitsToNat fracPart : ℚ) / ((10 : ℚ) ^ fracPart.length)
      match cs2 with
      | [] => some (sign * mantissa)
      | 'e' :: rest => strToNumberExp sign mantissa rest
      | 'E' :: rest => strToNumberExp sign mantissa rest
      | _ => none
where
  /-- Exponent suffix of a JS numeral: optional sign then digits. -/
  strToNumberExp (sign mantissa : ℚ) (cs : List Char) : Option ℚ :=
    let (esign, cs) : Bool × List Char :=
      match cs with
      | '-' :: rest => (true, rest)
      | '+' :: rest => (false, rest)
      | rest => (false, rest)
    if cs ≠ [] ∧ cs.all Char.isDigit then
      let e := digitsToNat cs
      some (sign * mantissa * (if esign then ((10 : ℚ) ^ e)⁻¹ else (10 : ℚ) ^ e))
    else none

/-- Coercion `Number(x)` (ToNumber).  `undefined` → NaN; `null`/`false` → `0`;
`true` → `1`; strings via `strToNumber`; `[]` → `0`, a one-element array
coerces through its element (JS goes through its string form — identical
for the primitive elements that can occur here), longer arrays and plain
objects → NaN. -/
def jsToNumber : JVal → Option ℚ
  | .undef => none
  | .null => some 0
  | .bool b => some (if b then 1 else 0)
  | .num q => some q
  | .str s => strToNumber s
  | .arr [] => some 0
  | .arr [x] => jsToNumber x
  | .arr (_ :: _ :: _) => none
  | .obj _ => none

/-- Idiom `Number(v) || d`: the coercion with its falsy fallback (NaN and `0`
both fall back to `d`), the idiom used throughout `normalizedData`. -/
def numOr (v : JVal) (d : ℚ) : ℚ :=
  match jsToNumber v with
  | none => d
  | some q => if q = 0 then d else q

/-! ### `String(x)` coercion (used for line-item `description`). -/

/-- Decimal digits (most significant first) of `n`, `"0"` for zero. -/
def natDigits (n : ℕ) : String :=
  (Nat.toDigits 10 n).asString

/-- Fractional digits of `q` with `0 ≤ q < 1`, up to `fuel` places,
stopping when the remainder reaches zero (numbers parsed from JSON have
denominators of the form `2^a * 5^b`, so the expansion terminates). -/
def fracDigits : ℕ → ℚ → String
  | 0, _ => ""
  | fuel + 1, q =>
    if q = 0 then ""
    else
      let q10 := q * 10
      let d := q10.floor.toNat % 10
      (Char.ofNat (48 + d)).toString ++ fracDigits fuel (q10 - q10.floor)

/-- JS number-to-string for the (terminating-decimal) rationals the
pipeline produces: sign, integer part, and a fractional expansion. -/
def numToString (q : ℚ) : String :=
  let sign := if q < 0 then "-" else ""
  let a := |q|
  let fracStr := fracDigits 40 (a - a.floor)
  sign ++ natDigits a.floor.toNat ++ (if fracStr = "" then "" else "." ++ fracStr)

mutual

/-- Coercion `String(x)` (ToString): `undefined`/`null`/booleans to their
keywords, numbers via `numToString`, arrays joined by `","` with
`null`/`undefined` elements printed as `""` (Array.prototype.toString),
objects to `"[object Object]"`. -/
def jsToString : JVal → String
  | .undef => "undefined"
  | .null => "null"
  | .bool b => if b then "true" else "false"
  | .num q => numToString q
  | .str s => s
  | .arr xs => String.intercalate "," (jsArrElems xs)
  | .obj _ => "[object Object]"

/-- Element strings of `Array.prototype.toString`: `null` and
`undefined` become `""`, everything else goes through `String(x)`. -/
def jsArrElems : List JVal → List String
  | [] => []
  | .undef :: rest => "" :: jsArrElems rest
  | .null :: rest => "" :: jsArrElems rest
  | v :: rest => jsToString v :: jsArrElems rest

end

/-! ### Extraction normalization
(`normalizedData` in `extractWithGemini` / `extractWithGroq`,
`src/apps/api/src/routes/upload.ts` lines 416-443 and 523-550; the two
blocks are textually identical, so one embedding serves both). -/

/-- A normalized line item.  `String(item.description || '')` always
yields a string and `Number(..) || d` always yields a number, so these
fields are typed exactly. -/
structure NLineItem where
  description : String
  unitPrice : ℚ
  quantity : ℚ
  total : ℚ
deriving DecidableEq

/-- The normalized `vendor` block.  The source populates these with
`parsedData.vendor?.x || ''`, which passes any truthy value through
unchanged, so the fields are arbitrary `JVal`s. -/
structure NVendor where
  name : JVal
  address : JVal
  taxId : JVal

/-- The normalized `invoice` block (same `|| default` caveat for the
textual fields; the `Number(..) || d` fields are genuine numbers). -/
structure NInvoice where
  number : JVal
  date : JVal
  currency : JVal
  subtotal : ℚ
  taxPercent : ℚ
  total : ℚ
  poNumber : JVal
  poDate : JVal
  lineItems : List NLineItem

/-- The `{vendor, invoice}` structure returned by both extraction
backends. -/
structure NormalizedInvoice where
  vendor : NVendor
  invoice : NInvoice

/-- The function mapped over `parsedData.invoice.lineItems`. -/
def normLineItem (item : JVal) : NLineItem where
  description := jsToString (JVal.jsOr (item.getF "description") (JVal.str ""))
  unitPrice := numOr (item.getF "unitPrice") 0
  quantity := numOr (item.getF "quantity") 1
  total := numOr (item.getF "total") 0

/-- The `normalizedData` object built from the parsed model response
(`upload.ts:416-443` / `523-550`). -/
def normalizeExtraction (parsedData : JVal) : NormalizedInvoice where
  vendor :=
    { name := JVal.jsOr ((parsedData.getF "vendor").getF "name") (JVal.str "")
      address := JVal.jsOr ((parsedData.getF "vendor").getF "address") (JVal.str "")
      taxId := JVal.jsOr ((parsedData.getF "vendor").getF "taxId") (JVal.str "") }
  invoice :=
    { number := JVal.jsOr ((parsedData.getF "invoice").getF "number") (JVal.str "")
      date := JVal.jsOr ((parsedData.getF "invoice").getF "date") (JVal.str "")
      currency := JVal.jsOr ((parsedData.getF "invoice").getF "currency") (JVal.str "USD")
      subtotal := numOr ((parsedData.getF "invoice").getF "subtotal") 0
      taxPercent := numOr ((parsedData.getF "invoice").getF "taxPercent") 0
      total := numOr ((parsedData.getF "invoice").getF "total") 0
      poNumber := JVal.jsOr ((parsedData.getF "invoice").getF "poNumber") (JVal.str "")
      poDate := JVal.jsOr ((parsedData.getF "invoice").getF "poDate") (JVal.str "")
      lineItems :=
        match (parsedData.getF "invoice").getF "lineItems" with
        | JVal.arr items => items.map normLineItem
        | _ => [] }

/-- A normalized line item as the JS object it is at runtime. -/
def lineItemToJVal (it : NLineItem) : JVal :=
  JVal.obj [("description", JVal.str it.description),
            ("unitPrice", JVal.num it.unitPrice),
            ("quantity", JVal.num it.quantity),
            ("total", JVal.num it.total)]

/-- A `NormalizedInvoice` as the JS object it is at runtime (body of the
200 response of `POST /extract`). -/
def normalizedToJVal (n : NormalizedInvoice) : JVal :=
  JVal.obj
    [("vendor", JVal.obj
        [("name", n.vendor.name),
         ("address", n.vendor.address),
         ("taxId", n.vendor.taxId)]),
     ("invoice", JVal.obj
        [("number", n.invoice.number),
         ("date", n.invoice.date),
         ("currency", n.invoice.currency),
         ("subtotal", JVal.num n.invoice.subtotal),
         ("taxPercent", JVal.num n.invoice.taxPercent),
         ("total", JVal.num n.invoice.total),
         ("poNumber", n.invoice.poNumber),
         ("poDate", n.invoice.poDate),
         ("lineItems", JVal.arr (n.invoice.lineItems.map lineItemToJVal))])]

/-- Is a `JVal` a string?  (The schema documented by the extraction
prompt types the vendor/invoice textual fields as strings.) -/
def JVal.isStr : JVal → Bool
  | JVal.str _ => true
  | _ => false

/-- The output shape the spec asserts: every textual field of the
normalized object is an actual string (the numeric fields and line items
are exactly typed by construction). -/
def schemaWellTyped (n : NormalizedInvoice) : Bool :=
  n.vendor.name.isStr && n.vendor.address.isStr && n.vendor.taxId.isStr &&
  n.invoice.number.isStr && n.invoice.date.isStr && n.invoice.currency.isStr &&
  n.invoice.poNumber.isStr && n.invoice.poDate.isStr

/-! ### Defensive JSON extraction from the model response
(`extractWithGroq`, `upload.ts:501-521`). -/

/-- JSON / JS whitespace as far as the responses contain it. -/
def isJsWs (c : Char) : Bool := c.isWhitespace

/-- Trimming (`s.trim()`) on a character list: whitespace stripped from both
ends. -/
def trimChars (cs : List Char) : List Char :=
  ((cs.dropWhile isJsWs).reverse.dropWhile isJsWs).reverse

/-- Fuel-indexed body of `stripJsonFences`; the fuel strictly exceeds
the list length, and every step consumes at least one character, so the
out-of-fuel branch is unreachable. -/
def stripJsonFencesGo : ℕ → List Char → List Char
  | 0, cs => cs
  | fuel + 1, cs =>
    match cs with
    | '`' :: '`' :: '`' :: 'j' :: 's' :: 'o' :: 'n' :: rest =>
      stripJsonFencesGo fuel (rest.dropWhile isJsWs)
    | c :: rest => c :: stripJsonFencesGo fuel rest
    | [] => []

/-- Global replace of the ```` ```json ```` fence opener together with
the whitespace run the greedy `\s*\n?` absorbs
(`cleanText.replace(/```json\s*\n?/g, '')`). -/
def stripJsonFences (cs : List Char) : List Char :=
  stripJsonFencesGo (cs.length + 1) cs

/-- Replacement `cleanText.replace(/```\s*$/g, '')`: a closing fence at the end of
the string (possibly followed by whitespace) is removed, everything
before it kept. -/
def stripTrailingFence (cs : List Char) : List Char :=
  match cs.reverse.dropWhile isJsWs with
  | '`' :: '`' :: '`' :: rs => rs.reverse
  | _ => cs

/-- Matching `cleanText.match(/\{[\s\S]*\}/)`: greedy, so the match runs from
the first brace to the last closing brace after it, when both exist. -/
def jsonSlice (cs : List Char) : Option (List Char) :=
  let t := cs.dropWhile (fun c => c != '{')
  if t = [] then none
  else
    let r := (t.reverse.dropWhile (fun c => c != '}')).reverse
    if r = [] then none else some r

/-- The response cleaning of the Groq path (`upload.ts:501-511`): trim,
strip fences, trim, then keep the brace-delimited slice if one exists. -/
def groqCleanResponse (responseText : String) : String :=
  let cleaned :=
    trimChars (stripTrailingFence (stripJsonFences (trimChars responseText.toList)))
  match jsonSlice cleaned with
  | some m => String.mk m
  | none => String.mk cleaned

/-! ### A JSON value parser (`JSON.parse`), fuel-indexed. -/

def hexVal (c : Char) : Option ℕ :=
  if c.isDigit then some (c.toNat - 48)
  else if 'a' ≤ c ∧ c ≤ 'f' then some (c.toNat - 87)
  else if 'A' ≤ c ∧ c ≤ 'F' then some (c.toNat - 55)
  else none

def skipWs (cs : List Char) : List Char :=
  cs.dropWhile (fun c => c == ' ' || c == '\t' || c == '\n' || c == '\r')

/-- Body of a JSON string literal (opening quote already consumed),
with the standard escapes; `\uXXXX` goes through `Char.ofNat`. -/
def parseStrBody : List Char → String → Option (String × List Char)
  | [], _ => none
  | '"' :: rest, acc => some (acc, rest)
  | '\\' :: '"' :: rest, acc => parseStrBody rest (acc.push '"')
  | '\\' :: '\\' :: rest, acc => parseStrBody rest (acc.push '\\')
  | '\\' :: '/' :: rest, acc => parseStrBody rest (acc.push '/')
  | '\\' :: 'b' :: rest, acc => parseStrBody rest (acc.push (Char.ofNat 8))
  | '\\' :: 'f' :: rest, acc => parseStrBody rest (acc.push (Char.ofNat 12))
  | '\\' :: 'n' :: rest, acc => parseStrBody rest (acc.push '\n')
  | '\\' :: 'r' :: rest, acc => parseStrBody rest (acc.push '\r')
  | '\\' :: 't' :: rest, acc => parseStrBody rest (acc.push '\t')
  | '\\' :: 'u' :: h1 :: h2 :: h3 :: h4 :: rest, acc =>
    match hexVal h1, hexVal h2, hexVal h3, hexVal h4 with
    | some a, some b, some c, some d =>
      parseStrBody rest (acc.push (Char.ofNat (((a * 16 + b) * 16 + c) * 16 + d)))
    | _, _, _, _ => none
  | '\\' :: _, _ => none
  | c :: rest, acc => parseStrBody rest (acc.push c)

/-- A JSON number token: `-`? int frac? exp?, mapped to an exact
rational. -/
def parseNumTok (cs : List Char) : Option (ℚ × List Char) :=
  let (sign, cs) : ℚ × List Char :=
    match cs with
    | '-' :: rest => (-1, rest)
    | rest => (1, rest)
  let intPart := cs.takeWhile Char.isDigit
  let cs1 := cs.dropWhile Char.isDigit
  if intPart = [] then none
  else if intPart.length > 1 ∧ intPart.headI = '0' then none
  else
    let (fracPart, cs2) : List Char × List Char :=
      match cs1 with
      | '.' :: rest => (rest.takeWhile Char.isDigit, rest.dropWhile Char.isDigit)
      | rest => ([], rest)
    if cs1 ≠ cs2 ∧ fracPart = [] then none
    else
      let mantissa : ℚ := sign * ((digitsToNat intPart : ℚ) +
        (digitsToNat fracPart : ℚ) / ((10 : ℚ) ^ fracPart.length))
      match cs2 with
      | 'e' :: rest => parseNumExp mantissa rest
      | 'E' :: rest => parseNumExp mantissa rest
      | rest => some (mantissa, rest)
where
  parseNumExp (mantissa : ℚ) (cs : List Char) : Option (ℚ × List Char) :=
    let (esign, cs) : Bool × List Char :=
      match cs with
      | '-' :: rest => (true, rest)
      | '+' :: rest => (false, rest)
      | rest => (false, rest)
    let ds := cs.takeWhile Char.isDigit
    if ds = [] then none
    else
      let e := digitsToNat ds
      some (mantissa * (if esign then ((10 : ℚ) ^ e)⁻¹ else (10 : ℚ) ^ e),
            cs.dropWhile Char.isDigit)

/-- Duplicate keys in a JSON object keep the last value at the first
occurrence position, as in JS. -/
def objInsert (fs : List (String × JVal)) (k : String) (v : JVal) :
    List (String × JVal) :=
  match fs with
  | [] => [(k, v)]
  | (k1, v1) :: rest =>
    if k1 = k then (k1, v) :: rest else (k1, v1) :: objInsert rest k v

mutual

def parseJsonVal : ℕ → List Char → Option (JVal × List Char)
  | 0, _ => none
  | fuel + 1, cs =>
    match skipWs cs with
    | 'n' :: 'u' :: 'l' :: 'l' :: rest => some (JVal.null, rest)
    | 't' :: 'r' :: 'u' :: 'e' :: rest => some (JVal.bool true, rest)
    | 'f' :: 'a' :: 'l' :: 's' :: 'e' :: rest => some (JVal.bool false, rest)
    | '"' :: rest =>
      match parseStrBody rest "" with
      | some (s, rest1) => some (JVal.str s, rest1)
      | none => none
    | '[' :: rest =>
      (match skipWs rest with
       | ']' :: rest1 => some (JVal.arr [], rest1)
       | _ => parseJsonArr fuel rest [])
    | '{' :: rest =>
      (match skipWs rest with
       | '}' :: rest1 => some (JVal.obj [], rest1)
       | _ => parseJsonObj fuel rest [])
    | rest =>
      match parseNumTok rest with
      | some (q, rest1) => some (JVal.num q, rest1)
      | none => none

def parseJsonArr : ℕ → List Char → List JVal → Option (JVal × List Char)
  | 0, _, _ => none
  | fuel + 1, cs, acc =>
    match parseJsonVal fuel cs with
    | none => none
    | some (v, rest) =>
      match skipWs rest with
      | ',' :: rest1 => parseJsonArr fuel rest1 (acc ++ [v])
      | ']' :: rest1 => some (JVal.arr (acc ++ [v]), rest1)
      | _ => none

def parseJsonObj : ℕ → List Char → List (String × JVal) →
    Option (JVal × List Char)
  | 0, _, _ => none
  | fuel + 1, cs, acc =>
    match skipWs cs with
    | '"' :: rest =>
      (match parseStrBody rest "" with
       | none => none
       | some (k, rest1) =>
         match skipWs rest1 with
         | ':' :: rest2 =>
           (match parseJsonVal fuel rest2 with
            | none => none
            | some (v, rest3) =>
              match skipWs rest3 with
              | ',' :: rest4 => parseJsonObj fuel rest4 (objInsert acc k v)
              | '}' :: rest4 => some (JVal.obj (objInsert acc k v), rest4)
              | _ => none)
         | _ => none)
    | _ => none

end

/-- Model of `JSON.parse`: a complete value followed only by whitespace.  The
concrete error text is irrelevant: the caller rethrows its own
message. -/
def parseJson (s : String) : Except String JVal :=
  let cs := s.toList
  match parseJsonVal (2 * cs.length + 4) cs with
  | some (v, rest) =>
    if skipWs rest = [] then Except.ok v else Except.error "Unexpected token"
  | none => Except.error "Unexpected input"

/-! ### Backend B (Groq) extraction with model fallback
(`extractWithGroq`, `upload.ts:451-591`) and the REST error mapping of
`POST /extract` (`upload.ts:724-769`). -/

/-- Is `pat` a prefix of `hay`? -/
def listStartsWith : List Char → List Char → Bool
  | [], _ => true
  | _ :: _, [] => false
  | p :: ps, c :: cs => p == c && listStartsWith ps cs

/-- Does `pat` occur contiguously inside `hay`? -/
def listInfix (pat : List Char) : List Char → Bool
  | [] => listStartsWith pat []
  | c :: cs => listStartsWith pat (c :: cs) || listInfix pat cs

/-- Substring test `haystack.includes(needle)`. -/
def strContains (hay pat : String) : Bool :=
  listInfix pat.toList hay.toList

/-- One round trip to the Groq chat API for a given model name, as the
adapter sees it: either the SDK call threw (carrying a message such as a
`model_decommissioned` notice), or it returned
`completion.choices[0]?.message?.content`. -/
inductive GroqReply : Type where
  | apiError : String → GroqReply
  | content : Option String → GroqReply

/-- The body of the per-model `try` block (`upload.ts:476-551`): call
the API, reject a missing content, clean the text, `JSON.parse` it
(parse failure throws `Invalid JSON response from Groq API`), then
normalize. -/
def groqAttempt (reply : GroqReply) : Except String NormalizedInvoice :=
  match reply with
  | .apiError msg => .error msg
  | .content none => .error "No response from Groq API"
  | .content (some text) =>
    match parseJson (groqCleanResponse text) with
    | .error _ => .error "Invalid JSON response from Groq API"
    | .ok parsed => .ok (normalizeExtraction parsed)

/-- The fixed ordered fallback list (`upload.ts:466-471`). -/
def groqModels : List String :=
  ["llama-3.1-8b-instant", "llama3-8b-8192", "mixtral-8x7b-32768", "gemma-7b-it"]

/-- The `for (const modelName of models)` loop (`upload.ts:474-568`):
success returns; an error whose message contains `model_decommissioned`
moves on to the next model (tracking `lastError`); any other error
breaks out, after which `throw lastError` rethrows it; when the list is
exhausted `throw lastError` rethrows the last decommission notice. -/
def groqModelLoop (oracle : String → GroqReply) :
    List String → Option String → Except String NormalizedInvoice
  | [], lastError => .error (lastError.getD "undefined")
  | m :: rest, _ =>
    match groqAttempt (oracle m) with
    | .ok v => .ok v
    | .error e =>
      if strContains e "model_decommissioned" then
        groqModelLoop oracle rest (some e)
      else .error e

/-- The outer `catch` of `extractWithGroq` (`upload.ts:570-590`):
rewraps known failure categories into fixed user-facing messages.  Note
that the all-models-decommissioned rewrap produces a message that no
longer contains the `model_decommissioned` marker. -/
def groqRewrap (msg : String) : String :=
  if strContains msg "rate limit" then
    "Groq API rate limit exceeded. Please try again later."
  else if strContains msg "quota" then
    "Groq API quota exceeded. Please try again later."
  else if strContains msg "model_decommissioned" then
    "All Groq models are currently unavailable. Please try Gemini instead."
  else if strContains msg "No text could be extracted" then
    "Could not extract text from PDF. The file might be image-based or corrupted."
  else "Failed to extract with Groq: " ++ msg

/-- Model of `extractWithGroq` over the locally extracted PDF text and
an oracle giving the reply of each model: empty/whitespace-only text throws the
"no extractable text" error; otherwise the fallback loop runs and any
error is rewrapped by the outer catch. -/
def extractWithGroq (pdfText : String) (oracle : String → GroqReply) :
    Except String NormalizedInvoice :=
  if (trimChars pdfText.toList).length = 0 then
    .error (groqRewrap
      "No text could be extracted from the PDF. The PDF might be image-based or corrupted.")
  else
    match groqModelLoop oracle groqModels none with
    | .ok v => .ok v
    | .error e => .error (groqRewrap e)

/-- The `POST /extract` error mapping (`upload.ts:724-769`): HTTP status
and the `retryable` flag of the response body, keyed on the thrown
message. -/
def extractErrorResponse (msg : String) : ℕ × Bool :=
  if strContains msg "503 Service Unavailable" then (503, true)
  else if strContains msg "quota" || strContains msg "Quota" then (429, true)
  else if strContains msg "rate limit" then (429, true)
  else if strContains msg "model_decommissioned" then (400, false)
  else (500, true)

/-! ### `POST /extract` input validation and API-key checks
(`upload.ts:647-696`). -/

/-- Presence (JS truthiness) of the two AI keys in the environment. -/
structure ExtractEnv where
  geminiKey : Bool
  groqKey : Bool

/-- Membership test of `model` in the allowed list (strict string
equality against "gemini" and "groq"). -/
def isAllowedModel : JVal → Bool
  | .str s => s == "gemini" || s == "groq"
  | _ => false

/-- Strict equality `model === s`. -/
def jvalEqStr : JVal → String → Bool
  | .str t, s => t == s
  | _, _ => false

/-- The validation prefix of the `POST /extract` handler, up to and
including the API-key checks: `none` means the request proceeds to the
database/file stage.  The pairs are (HTTP status, `error` field). -/
def extractValidate (fileId model : JVal) (env : ExtractEnv) :
    Option (ℕ × String) :=
  if !fileId.truthy || !model.truthy then
    some (400, "Missing required fields")
  else if !isAllowedModel model then
    some (400, "Invalid model")
  else if jvalEqStr model "gemini" && !env.geminiKey then
    some (500, "Configuration error")
  else if jvalEqStr model "groq" && !env.groqKey then
    some (500, "Configuration error")
  else none

/-! ### Upload size / type gate
(multer config `upload.ts:9-21`, `handleMulterError` `upload.ts:24-39`,
empty-buffer check `upload.ts:70-75`).  Busboy truncates a file only
when it exceeds `limits.fileSize`, so a file of exactly the limit
passes and one byte more raises `LIMIT_FILE_SIZE`. -/

inductive UploadOutcome : Type where
  | rejectedNonPdf
  | rejectedTooLarge
  | rejectedEmpty
  | accepted
deriving DecidableEq

/-- The multer `fileSize` limit, `25 * 1024 * 1024`. -/
def uploadSizeLimit : ℕ := 25 * 1024 * 1024

/-- Disposition of a single-file `POST /upload` with a connected
database: mime filter, size limit, then the empty-buffer check. -/
def uploadOutcome (mimetype : String) (size : ℕ) : UploadOutcome :=
  if mimetype ≠ "application/pdf" then .rejectedNonPdf
  else if size > uploadSizeLimit then .rejectedTooLarge
  else if size = 0 then .rejectedEmpty
  else .accepted

/-- HTTP status of each disposition (400s from `handleMulterError` and
the empty-buffer branch; 201 on success). -/
def uploadStatus : UploadOutcome → ℕ
  | .rejectedNonPdf => 400
  | .rejectedTooLarge => 400
  | .rejectedEmpty => 400
  | .accepted => 201

/-! ### Invoice records: list/search, get, delete, create
(`src/apps/api/src/routes/invoices.ts`; persisted schema in the Mongoose
model file `src/unnamed/part_006:242-276`). -/

/-- The fields of a persisted record that the list/search/get/delete
handlers inspect (search touches `vendor.name` and `invoice.number`,
ordering touches `createdAt`, identity touches `_id`). -/
structure StoredInvoice : Type where
  mid : String
  vendorName : String
  invoiceNumber : String
  createdAt : ℕ
deriving DecidableEq

/-- One pattern character against one text character: `.` is the PCRE
wildcard, anything else matches itself. -/
def rxCharMatch (p c : Char) : Bool := p == '.' || p == c

mutual

/-- Anchored backtracking matcher for a fragment of the PCRE pattern
syntax: literal characters, the wildcard `.`, and single postfix
quantifiers `*`, `+`, `?` — the shape checked by `patternInFragment`
below.  On that fragment it models the semantics MongoDB gives
`{$regex: q}`; the search box is a free-text input that can reach all
of PCRE, and outside the fragment — alternation, character classes,
groups, anchors, escapes, braces, and syntactically invalid patterns,
which make the real query throw so that the route answers 500 — this
matcher (which treats those characters as literals) is NOT a faithful
model, and every theorem about search below therefore quantifies only
over fragment patterns.  Fuel-indexed so the definition computes; every
recursive call descends in the lexicographic order on (pattern length,
text length, phase), so with the fuel `rxFuel` supplies the out-of-fuel
branch is unreachable. -/
def rxMatchHere : ℕ → List Char → List Char → Bool
  | 0, _, _ => false
  | fuel + 1, pat, s =>
    match pat with
    | [] => true
    | p :: '*' :: ps => rxMatchStar fuel p ps s
    | p :: '+' :: ps =>
      (match s with
       | [] => false
       | c :: s1 => rxCharMatch p c && rxMatchStar fuel p ps s1)
    | p :: '?' :: ps =>
      (match s with
       | [] => false
       | c :: s1 => rxCharMatch p c && rxMatchHere fuel ps s1) ||
      rxMatchHere fuel ps s
    | p :: ps =>
      (match s with
       | [] => false
       | c :: s1 => rxCharMatch p c && rxMatchHere fuel ps s1)

/-- Kleene-star step: zero or more further copies of `p`, then `ps`. -/
def rxMatchStar : ℕ → Char → List Char → List Char → Bool
  | 0, _, _, _ => false
  | fuel + 1, p, ps, s =>
    rxMatchHere fuel ps s ||
    (match s with
     | [] => false
     | c :: s1 => rxCharMatch p c && rxMatchStar fuel p ps s1)

end

/-- Fuel dominating the depth of any `rxMatchHere` recursion. -/
def rxFuel (pat s : List Char) : ℕ := (pat.length + 2) * (2 * s.length + 3)

/-- Unanchored search: the pattern may match starting anywhere. -/
def rxSearch (pat : List Char) : List Char → Bool
  | [] => rxMatchHere (rxFuel pat []) pat []
  | c :: s1 => rxMatchHere (rxFuel pat (c :: s1)) pat (c :: s1) || rxSearch pat s1

/-- Test of `{$regex: q, $options: 'i'}` against one field: case-insensitive
(via lowercasing both sides) unanchored regex search.  Faithful to the
program only for patterns in the `patternInFragment` fragment (see
`rxMatchHere`); the theorems below restrict to it. -/
def regexTestI (pattern text : String) : Bool :=
  rxSearch (pattern.toList.map Char.toLower) (text.toList.map Char.toLower)

/-- Is this character one of the modeled postfix quantifiers? -/
def rxQuantChar (c : Char) : Bool := c == '*' || c == '+' || c == '?'

/-- A character the modeled fragment treats as an atom: anything that
is not a PCRE metacharacter, plus the wildcard `.` (which the matcher
does model). -/
def rxAtomChar (c : Char) : Bool :=
  !(c == '*' || c == '+' || c == '?' || c == '|' || c == '(' || c == ')' ||
    c == '[' || c == ']' || c == '{' || c == '}' || c == '^' || c == '$' ||
    c == '\\')

/-- The pattern fragment on which `rxMatchHere` is a faithful model of
PCRE: a sequence of atoms (literal characters or `.`), each followed by
at most one postfix quantifier.  Every such pattern is a syntactically
valid PCRE regex, so the invalid-pattern query error (a 500 at the
route) cannot occur inside the fragment. -/
def patternInFragment : List Char → Bool
  | [] => true
  | [c] => rxAtomChar c
  | c :: q :: rest =>
    rxAtomChar c &&
    (if rxQuantChar q then patternInFragment rest
     else patternInFragment (q :: rest))

/-- A pattern character with no special meaning at all: an atom other
than the wildcard `.`.  A pattern of such characters matches exactly
where it occurs literally as a substring. -/
def literalPatChar (c : Char) : Bool := rxAtomChar c && !(c == '.')

/-- The `$or` filter built by `GET /api/invoices` for a given search
term. -/
def invoiceMatches (q : String) (inv : StoredInvoice) : Bool :=
  regexTestI q inv.vendorName || regexTestI q inv.invoiceNumber

/-- Choice between `let query = {}` and the `$or` query: the guard
checks truthiness (plus a string-type check), so an empty (falsy) term
also selects everything. -/
def listQueryFilter (q : Option String) (store : List StoredInvoice) :
    List StoredInvoice :=
  match q with
  | some s => if s ≠ "" then store.filter (invoiceMatches s) else store
  | none => store

/-- Ordering `.sort({createdAt: -1})`: newest first. -/
def newestFirst (a b : StoredInvoice) : Prop := b.createdAt ≤ a.createdAt

instance : DecidableRel newestFirst := fun a b =>
  inferInstanceAs (Decidable (b.createdAt ≤ a.createdAt))

instance : IsTotal StoredInvoice newestFirst :=
  ⟨fun a b => Nat.le_total b.createdAt a.createdAt⟩

instance : IsTrans StoredInvoice newestFirst :=
  ⟨fun _ _ _ h1 h2 => Nat.le_trans h2 h1⟩

/-- Handler of `GET /api/invoices`: filter, sort descending by `createdAt`, cap at
100 (`invoices.ts:7-34`). -/
def listInvoices (q : Option String) (store : List StoredInvoice) :
    List StoredInvoice :=
  (List.insertionSort newestFirst (listQueryFilter q store)).take 100

/-- The spec sentence this endpoint is claimed to implement:
case-insensitive substring containment of the term in `vendor.name` or
`invoice.number`.  Stated from the spec, for comparison with
`listInvoices`. -/
def specContainsCI (term text : String) : Bool :=
  listInfix (term.toList.map Char.toLower) (text.toList.map Char.toLower)

/-- Lookup `Invoice.findById(id)` (`invoices.ts:37-54`); `_id` values are
unique in a collection. -/
def getInvoice (id : String) (store : List StoredInvoice) :
    Option StoredInvoice :=
  store.find? (fun r => r.mid == id)

/-- Deletion `Invoice.findByIdAndDelete(id)` (`invoices.ts:105-122`): the deleted
document (`none` → the route answers 404) and the resulting store. -/
def deleteInvoice (id : String) (store : List StoredInvoice) :
    Option StoredInvoice × List StoredInvoice :=
  match store.find? (fun r => r.mid == id) with
  | none => (none, store)
  | some r => (some r, store.eraseP (fun x => x.mid == id))

/-- HTTP status of `DELETE /api/invoices/:id`. -/
def deleteStatus (id : String) (store : List StoredInvoice) : ℕ :=
  if (deleteInvoice id store).1.isSome then 200 else 404

/-- HTTP status of `GET /api/invoices/:id`. -/
def getStatus (id : String) (store : List StoredInvoice) : ℕ :=
  if (getInvoice id store).isSome then 200 else 404

/-! ### `POST /api/invoices` (`invoices.ts:57-77`) and the Mongoose
schema validation that `invoice.save()` runs
(`src/unnamed/part_006:242-276`).  Mongoose semantics modelled here:
a `String` path casts strings as-is and stringifies numbers/booleans
(anything else is a CastError); its `required` validator additionally
rejects the empty string.  A `Number` path casts numbers, numeric
strings and booleans, with the `castNumber` special case that the empty
string casts to `null`; a non-numeric string is a CastError; the
`required` validator accepts any cast number including `0` and rejects
the `null` results (so an empty-string numeric field fails a required
path but passes an optional one).  `null`/`undefined` pass optional
paths and fail required ones.  A cast or validation failure makes
`save()` throw, which the route catches as a 500. -/

/-- Mongoose `SchemaString` cast. -/
def castToString : JVal → Option String
  | .str s => some s
  | .num q => some (numToString q)
  | .bool b => some (if b then "true" else "false")
  | _ => none

/-- Mongoose `SchemaNumber` cast.  The outer `Option` is the cast
outcome (`none` a CastError); the inner one is the stored value:
`null`/`undefined` and — by the `castNumber` special case — the empty
string are stored as `null` (`some none`). -/
def castToNumber : JVal → Option (Option ℚ)
  | .undef => some none
  | .null => some none
  | .num q => some (some q)
  | .str "" => some none
  | .str s =>
    match strToNumber s with
    | some q => some (some q)
    | none => none
  | .bool b => some (some (if b then 1 else 0))
  | _ => none

/-- Validator of `{ type: String, required: true }`: present, castable,
nonempty. -/
def requiredStringOk (v : JVal) : Bool :=
  match v with
  | .undef => false
  | .null => false
  | v =>
    match castToString v with
    | some s => s ≠ ""
    | none => false

/-- Validator of `{ type: String }`: absent is fine, present must cast. -/
def optionalStringOk : JVal → Bool
  | .undef => true
  | .null => true
  | v => (castToString v).isSome

/-- Validator of `{ type: Number, required: true }`: the cast must
succeed and produce an actual number — a `null` result (absent value or
empty string) fails the required check. -/
def requiredNumberOk (v : JVal) : Bool :=
  match castToNumber v with
  | some (some _) => true
  | _ => false

/-- Validator of `{ type: Number }`: the cast must succeed; a `null`
result is stored as `null` and is fine. -/
def optionalNumberOk (v : JVal) : Bool :=
  (castToNumber v).isSome

/-- Validation of `LineItemSchema` (`part_006:242-247`): all four fields required. -/
def lineItemSchemaOk (item : JVal) : Bool :=
  requiredStringOk (item.getF "description") &&
  requiredNumberOk (item.getF "unitPrice") &&
  requiredNumberOk (item.getF "quantity") &&
  requiredNumberOk (item.getF "total")

/-- Validation of `lineItems: [LineItemSchema]` (`part_006:264`): an absent value
defaults to the empty document array; an array must validate
element-wise; anything else fails to cast. -/
def lineItemsSchemaOk : JVal → Bool
  | .undef => true
  | .null => true
  | .arr items => items.all lineItemSchemaOk
  | _ => false

/-- Validation of `VendorSchema` (`part_006:249-253`): a subdocument with required
nonempty `name`. -/
def vendorSchemaOk (vendor : JVal) : Bool :=
  match vendor with
  | .obj _ =>
    requiredStringOk (vendor.getF "name") &&
    optionalStringOk (vendor.getF "address") &&
    optionalStringOk (vendor.getF "taxId")
  | _ => false

/-- Validation of `InvoiceDataSchema` (`part_006:255-265`): required nonempty `number`
and `date`, optional typed rest. -/
def invoiceDataSchemaOk (inv : JVal) : Bool :=
  match inv with
  | .obj _ =>
    requiredStringOk (inv.getF "number") &&
    requiredStringOk (inv.getF "date") &&
    optionalStringOk (inv.getF "currency") &&
    optionalNumberOk (inv.getF "subtotal") &&
    optionalNumberOk (inv.getF "taxPercent") &&
    optionalNumberOk (inv.getF "total") &&
    optionalStringOk (inv.getF "poNumber") &&
    optionalStringOk (inv.getF "poDate") &&
    lineItemsSchemaOk (inv.getF "lineItems")
  | _ => false

/-- Full `InvoiceSchema` (`part_006:267-274`) validation of a create
payload. -/
def invoiceSchemaOk (payload : JVal) : Bool :=
  requiredStringOk (payload.getF "fileId") &&
  requiredStringOk (payload.getF "fileName") &&
  vendorSchemaOk (payload.getF "vendor") &&
  invoiceDataSchemaOk (payload.getF "invoice")

inductive CreateResult : Type where
  | badRequest
  | created
  | serverError
deriving DecidableEq

/-- Handler of `POST /api/invoices`: the route-level check is only JS
truthiness of
the four top-level fields (400 `Missing required fields`); then
`invoice.save()` either persists (201) or throws a Mongoose
validation/cast error, answered as a 500 (`Failed to create invoice`). -/
def createInvoice (payload : JVal) : CreateResult :=
  if !(payload.getF "fileId").truthy || !(payload.getF "fileName").truthy ||
     !(payload.getF "vendor").truthy || !(payload.getF "invoice").truthy then
    .badRequest
  else if invoiceSchemaOk payload then .created
  else .serverError

def createStatus : CreateResult → ℕ
  | .badRequest => 400
  | .created => 201
  | .serverError => 500

/-! ### The editor function `updateLineItem`
(`src/apps/web/src/components/ui/InvoiceForm.tsx:351-388`). -/

/-- A line item in form state.  The TS type says string/number, but the
function defends against junk, so fields are JS values. -/
structure FormLineItem : Type where
  description : JVal
  unitPrice : JVal
  quantity : JVal
  total : JVal

inductive LIField : Type where
  | description
  | unitPrice
  | quantity
  | total
deriving DecidableEq

/-- Spread update `{ ...currentItem, [field]: value }`. -/
def setLIField (it : FormLineItem) : LIField → JVal → FormLineItem
  | .description, v => { it with description := v }
  | .unitPrice, v => { it with unitPrice := v }
  | .quantity, v => { it with quantity := v }
  | .total, v => { it with total := v }

/-- The handler `updateLineItem(index, field, value)` acting on
`prev.invoice.lineItems` (the only part of the form state it changes):
out-of-range indices leave the state alone; an edit replaces the field,
and editing `unitPrice` or `quantity` recomputes the `total` of that item as
`(Number(new or old unitPrice) || 0) * (Number(new or old quantity) || 0)`
— new value for the edited operand, the previous value of the item for the
other.  (The `!currentItem` guard of the source can never fire once the
index is in range, and items here are always objects.) -/
def updateLineItem (items : List FormLineItem) (index : ℤ) (field : LIField)
    (value : JVal) : List FormLineItem :=
  if index < 0 ∨ (items.length : ℤ) ≤ index then items
  else
    let i := index.toNat
    match items.get? i with
    | none => items
    | some currentItem =>
      let newItem := setLIField currentItem field value
      let newItem :=
        match field with
        | .unitPrice =>
          { newItem with
            total := JVal.num (numOr value 0 * numOr currentItem.quantity 0) }
        | .quantity =>
          { newItem with
            total := JVal.num (numOr currentItem.unitPrice 0 * numOr value 0) }
        | _ => newItem
      items.set i newItem

/-! ### Auxiliary predicates used in the statements below. -/

/-- Is a `JVal` an array? -/
def JVal.isArr : JVal → Bool
  | JVal.arr _ => true
  | _ => false

/-- A value that is a string whenever it is truthy (what `v || ''` needs
in order to yield a string). -/
def strOrFalsy (v : JVal) : Bool := !v.truthy || v.isStr

/-- Every textual field of the raw extraction response that the
normalization passes through `|| default` is, when truthy, a string.
(Line-item descriptions are exempt: they go through `String(..)`.) -/
def textualFieldsOk (x : JVal) : Bool :=
  strOrFalsy ((x.getF "vendor").getF "name") &&
  strOrFalsy ((x.getF "vendor").getF "address") &&
  strOrFalsy ((x.getF "vendor").getF "taxId") &&
  strOrFalsy ((x.getF "invoice").getF "number") &&
  strOrFalsy ((x.getF "invoice").getF "date") &&
  strOrFalsy ((x.getF "invoice").getF "currency") &&
  strOrFalsy ((x.getF "invoice").getF "poNumber") &&
  strOrFalsy ((x.getF "invoice").getF "poDate")

attribute [ext] NVendor NInvoice NormalizedInvoice

/-! ## Theorems -/

theorem jsOr_of_falsy {v : JVal} (d : JVal) (h : v.truthy = false) :
    v.jsOr d = d := by
  simp [JVal.jsOr, h]

theorem jsOr_of_truthy {v : JVal} (d : JVal) (h : v.truthy = true) :
    v.jsOr d = v := by
  simp [JVal.jsOr, h]

theorem jsOr_jsOr (a d : JVal) : (a.jsOr d).jsOr d = a.jsOr d := by
  by_cases h : a.truthy
  · simp [JVal.jsOr, h]
  · simp only [JVal.jsOr, h, Bool.false_eq_true, if_false]
    split <;> rfl

theorem numOr_of_none {v : JVal} (d : ℚ) (h : jsToNumber v = none) :
    numOr v d = d := by
  simp [numOr, h]

theorem numOr_of_some_zero {v : JVal} (d : ℚ) (h : jsToNumber v = some 0) :
    numOr v d = d := by
  simp [numOr, h]

theorem numOr_num_zero (p : ℚ) : numOr (JVal.num p) 0 = p := by
  by_cases hp : p = 0 <;> simp [numOr, jsToNumber, hp]

theorem numOr_numOr (v : JVal) (d : ℚ) :
    numOr (JVal.num (numOr v d)) d = numOr v d := by
  simp only [numOr, jsToNumber]
  cases h : jsToNumber v with
  | none => split <;> rfl
  | some q => by_cases hq : q = 0 <;> simp [hq]

theorem jsOr_str_isStr (v : JVal) (d : String) (h : strOrFalsy v = true) :
    (v.jsOr (JVal.str d)).isStr = true := by
  by_cases ht : v.truthy
  · rw [jsOr_of_truthy _ ht]
    simpa [strOrFalsy, ht] using h
  · rw [jsOr_of_falsy _ (by simpa using ht)]
    rfl

theorem falsy_jsToNumber {v : JVal} (h : v.truthy = false) :
    jsToNumber v = none ∨ jsToNumber v = some 0 := by
  cases v with
  | undef => exact Or.inl rfl
  | null => exact Or.inr rfl
  | bool b =>
    cases b
    · exact Or.inr rfl
    · simp [JVal.truthy] at h
  | num q =>
    simp only [JVal.truthy, bne_eq_false_iff_eq] at h
    simp [jsToNumber, h]
  | str s =>
    simp only [JVal.truthy, bne_eq_false_iff_eq] at h
    subst h
    exact Or.inr rfl
  | arr xs => simp [JVal.truthy] at h
  | obj fs => simp [JVal.truthy] at h

/-- C1 counterexample: the extraction normalization does not coerce
truthy non-string textual fields.  For the input object
`\x7b vendor: \x7b name: 5 \x7d \x7d` the normalized `vendor.name` is
still the number `5`, not a string, contradicting the claim that every
textual field of the output is of its documented (string) type. -/
theorem C1_counterexample :
    (normalizeExtraction
        (JVal.obj [("vendor", JVal.obj [("name", JVal.num 5)])])).vendor.name
      = JVal.num 5 ∧
    (normalizeExtraction
        (JVal.obj [("vendor", JVal.obj [("name", JVal.num 5)])])).vendor.name.isStr
      = false :=
  ⟨rfl, rfl⟩

/-- C1 (amended): the normalization step is total and populates every
field of the fixed schema; numeric fields are always numbers (missing or
non-numeric → `0`, line-item `quantity` → `1`), a non-array `lineItems`
becomes the empty sequence, textual fields default to `""` (currency to
`"USD"`) when missing or falsy — and the textual fields of the output are all
strings provided every truthy textual input field is a string (truthy
non-string values pass through unchanged, see the counterexample). -/
theorem C1_normalization_totality (x : JVal) (h : textualFieldsOk x = true) :
    schemaWellTyped (normalizeExtraction x) = true ∧
    (((x.getF "vendor").getF "name").truthy = false →
      (normalizeExtraction x).vendor.name = JVal.str "") ∧
    (((x.getF "vendor").getF "address").truthy = false →
      (normalizeExtraction x).vendor.address = JVal.str "") ∧
    (((x.getF "vendor").getF "taxId").truthy = false →
      (normalizeExtraction x).vendor.taxId = JVal.str "") ∧
    (((x.getF "invoice").getF "number").truthy = false →
      (normalizeExtraction x).invoice.number = JVal.str "") ∧
    (((x.getF "invoice").getF "date").truthy = false →
      (normalizeExtraction x).invoice.date = JVal.str "") ∧
    (((x.getF "invoice").getF "currency").truthy = false →
      (normalizeExtraction x).invoice.currency = JVal.str "USD") ∧
    (((x.getF "invoice").getF "poNumber").truthy = false →
      (normalizeExtraction x).invoice.poNumber = JVal.str "") ∧
    (((x.getF "invoice").getF "poDate").truthy = false →
      (normalizeExtraction x).invoice.poDate = JVal.str "") ∧
    (jsToNumber ((x.getF "invoice").getF "subtotal") = none →
      (normalizeExtraction x).invoice.subtotal = 0) ∧
    (jsToNumber ((x.getF "invoice").getF "taxPercent") = none →
      (normalizeExtraction x).invoice.taxPercent = 0) ∧
    (jsToNumber ((x.getF "invoice").getF "total") = none →
      (normalizeExtraction x).invoice.total = 0) ∧
    (((x.getF "invoice").getF "lineItems").isArr = false →
      (normalizeExtraction x).invoice.lineItems = []) ∧
    (∀ item : JVal, jsToNumber (item.getF "quantity") = none →
      (normLineItem item).quantity = 1) ∧
    (∀ item : JVal, jsToNumber (item.getF "unitPrice") = none →
      (normLineItem item).unitPrice = 0) ∧
    (∀ item : JVal, (item.getF "description").truthy = false →
      (normLineItem item).description = "") := by
  simp only [textualFieldsOk, Bool.and_eq_true] at h
  obtain ⟨⟨⟨⟨⟨⟨⟨h1, h2⟩, h3⟩, h4⟩, h5⟩, h6⟩, h7⟩, h8⟩ := h
  refine ⟨?_, fun hf => jsOr_of_falsy _ hf, fun hf => jsOr_of_falsy _ hf,
    fun hf => jsOr_of_falsy _ hf, fun hf => jsOr_of_falsy _ hf,
    fun hf => jsOr_of_falsy _ hf, fun hf => jsOr_of_falsy _ hf,
    fun hf => jsOr_of_falsy _ hf, fun hf => jsOr_of_falsy _ hf,
    fun hn => numOr_of_none _ hn, fun hn => numOr_of_none _ hn,
    fun hn => numOr_of_none _ hn, ?_, ?_, ?_, ?_⟩
  · simp only [schemaWellTyped, Bool.and_eq_true]
    exact ⟨⟨⟨⟨⟨⟨⟨jsOr_str_isStr _ _ h1, jsOr_str_isStr _ _ h2⟩,
      jsOr_str_isStr _ _ h3⟩, jsOr_str_isStr _ _ h4⟩, jsOr_str_isStr _ _ h5⟩,
      jsOr_str_isStr _ _ h6⟩, jsOr_str_isStr _ _ h7⟩, jsOr_str_isStr _ _ h8⟩
  · intro ha
    show (match (x.getF "invoice").getF "lineItems" with
      | JVal.arr items => items.map normLineItem
      | _ => []) = []
    cases hv : (x.getF "invoice").getF "lineItems" <;> simp_all [JVal.isArr]
  · intro item hn
    exact numOr_of_none _ hn
  · intro item hn
    exact numOr_of_none _ hn
  · intro item hf
    show jsToString ((item.getF "description").jsOr (JVal.str "")) = ""
    rw [jsOr_of_falsy _ hf]
    rfl

/-- C1 witness: the amended theorem applied to the empty object. -/
theorem C1_normalization_totality_witness :
    textualFieldsOk (JVal.obj []) = true ∧
    schemaWellTyped (normalizeExtraction (JVal.obj [])) = true :=
  ⟨rfl, (C1_normalization_totality (JVal.obj []) rfl).1⟩

/-- C9: in the line-item normalization, a quantity that is the number
`0` — or any falsy value, or any value whose `Number(..)` coercion is
NaN — becomes `1`, while a `unitPrice` or `total` of `0` is kept as
`0`: an explicit zero quantity does not survive normalization. -/
theorem C9_zero_quantity_becomes_one (item : JVal) :
    ((item.getF "quantity").truthy = false → (normLineItem item).quantity = 1) ∧
    (item.getF "quantity" = JVal.num 0 → (normLineItem item).quantity = 1) ∧
    (item.getF "unitPrice" = JVal.num 0 → (normLineItem item).unitPrice = 0) ∧
    (item.getF "total" = JVal.num 0 → (normLineItem item).total = 0) := by
  refine ⟨fun hf => ?_, fun h0 => ?_, fun h0 => ?_, fun h0 => ?_⟩
  · show numOr (item.getF "quantity") 1 = 1
    rcases falsy_jsToNumber hf with hn | hn
    · exact numOr_of_none _ hn
    · exact numOr_of_some_zero _ hn
  · show numOr (item.getF "quantity") 1 = 1
    rw [h0]
    simp [numOr, jsToNumber]
  · show numOr (item.getF "unitPrice") 0 = 0
    rw [h0]
    exact numOr_num_zero 0
  · show numOr (item.getF "total") 0 = 0
    rw [h0]
    exact numOr_num_zero 0

/-- C9 witness: the theorem applied to a line item whose three numeric
fields are literally `0`. -/
theorem C9_zero_quantity_becomes_one_witness :
    (normLineItem (JVal.obj [("quantity", JVal.num 0), ("unitPrice", JVal.num 0),
        ("total", JVal.num 0)])).quantity = 1 ∧
    (normLineItem (JVal.obj [("quantity", JVal.num 0), ("unitPrice", JVal.num 0),
        ("total", JVal.num 0)])).unitPrice = 0 ∧
    (normLineItem (JVal.obj [("quantity", JVal.num 0), ("unitPrice", JVal.num 0),
        ("total", JVal.num 0)])).total = 0 :=
  ⟨(C9_zero_quantity_becomes_one _).2.1 rfl,
   (C9_zero_quantity_becomes_one _).2.2.1 rfl,
   (C9_zero_quantity_becomes_one _).2.2.2 rfl⟩

theorem jsToString_str_or_empty (s : String) :
    jsToString ((JVal.str s).jsOr (JVal.str "")) = s := by
  by_cases hs : s = ""
  · subst hs
    rfl
  · rw [jsOr_of_truthy _ (by simpa [JVal.truthy] using hs)]
    rfl

theorem normLineItem_roundtrip (item : JVal) :
    normLineItem (lineItemToJVal (normLineItem item)) = normLineItem item := by
  show NLineItem.mk _ _ _ _ = NLineItem.mk _ _ _ _
  congr 1
  · exact jsToString_str_or_empty _
  · exact numOr_numOr _ 0
  · exact numOr_numOr _ 1
  · exact numOr_numOr _ 0

theorem map_normLineItem_roundtrip (items : List JVal) :
    List.map normLineItem (List.map lineItemToJVal (List.map normLineItem items)) =
      List.map normLineItem items := by
  induction items with
  | nil => rfl
  | cons it rest ih =>
    simp only [List.map_cons, normLineItem_roundtrip, ih]

/-- C10: the extraction normalization is idempotent — feeding the JS
object that a normalized result denotes back through the normalization
step reproduces it exactly. -/
theorem C10_normalization_idempotent (x : JVal) :
    normalizeExtraction (normalizedToJVal (normalizeExtraction x)) =
      normalizeExtraction x := by
  refine NormalizedInvoice.ext ?_ ?_
  · exact NVendor.ext (jsOr_jsOr _ _) (jsOr_jsOr _ _) (jsOr_jsOr _ _)
  · refine NInvoice.ext (jsOr_jsOr _ _) (jsOr_jsOr _ _) (jsOr_jsOr _ _)
      (numOr_numOr _ _) (numOr_numOr _ _) (numOr_numOr _ _)
      (jsOr_jsOr _ _) (jsOr_jsOr _ _) ?_
    show List.map normLineItem (List.map lineItemToJVal
        ((normalizeExtraction x).invoice.lineItems)) =
      (normalizeExtraction x).invoice.lineItems
    have hL : (normalizeExtraction x).invoice.lineItems =
        match (x.getF "invoice").getF "lineItems" with
        | JVal.arr items => items.map normLineItem
        | _ => [] := rfl
    rw [hL]
    cases (x.getF "invoice").getF "lineItems" <;>
      first
      | rfl
      | exact map_normLineItem_roundtrip _

/-- C2 counterexample: when every model in the fixed list signals
`model_decommissioned`, the adapter does rewrap the failure as
"All Groq models are currently unavailable. Please try Gemini instead."
— but that message no longer contains the `model_decommissioned` marker,
so the REST mapping answers 500 with `retryable: true`, not the
non-retryable 400 the claim asserts. -/
theorem C2_counterexample :
    extractWithGroq "invoice text"
        (fun _ => GroqReply.apiError "model_decommissioned") =
      Except.error
        "All Groq models are currently unavailable. Please try Gemini instead." ∧
    extractErrorResponse
        "All Groq models are currently unavailable. Please try Gemini instead." =
      (500, true) ∧
    (extractErrorResponse
        "All Groq models are currently unavailable. Please try Gemini instead.").1
      ≠ 400 :=
  ⟨rfl, by decide, by decide⟩

/-- C2 (amended): in the Groq path, a per-model attempt that fails with
a `model_decommissioned` message makes the loop continue with the next
model; a success returns its normalized value; any other error stops the
loop and is rethrown; and when every model in the fixed list signals
`model_decommissioned` (and not also a rate-limit/quota marker), the
adapter fails with the fixed message naming that all models are
unavailable — which the REST layer then surfaces as a retryable 500,
because the rewrapped message defeats the `model_decommissioned` → 400
mapping. -/
theorem C2_groq_fallback :
    (∀ (oracle : String → GroqReply) m rest last e,
        groqAttempt (oracle m) = Except.error e →
        strContains e "model_decommissioned" = true →
        groqModelLoop oracle (m :: rest) last = groqModelLoop oracle rest (some e)) ∧
    (∀ (oracle : String → GroqReply) m rest last v,
        groqAttempt (oracle m) = Except.ok v →
        groqModelLoop oracle (m :: rest) last = Except.ok v) ∧
    (∀ (oracle : String → GroqReply) m rest last e,
        groqAttempt (oracle m) = Except.error e →
        strContains e "model_decommissioned" = false →
        groqModelLoop oracle (m :: rest) last = Except.error e) ∧
    (∀ (oracle : String → GroqReply) text,
        (trimChars text.toList).length ≠ 0 →
        (∀ m ∈ groqModels, ∃ e, groqAttempt (oracle m) = Except.error e ∧
            strContains e "model_decommissioned" = true ∧
            strContains e "rate limit" = false ∧
            strContains e "quota" = false) →
        extractWithGroq text oracle =
          Except.error
            "All Groq models are currently unavailable. Please try Gemini instead.") ∧
    extractErrorResponse
        "All Groq models are currently unavailable. Please try Gemini instead." =
      (500, true) := by
  have hstep : ∀ (oracle : String → GroqReply) m rest last e,
      groqAttempt (oracle m) = Except.error e →
      strContains e "model_decommissioned" = true →
      groqModelLoop oracle (m :: rest) last = groqModelLoop oracle rest (some e) := by
    intro oracle m rest last e he hd
    simp [groqModelLoop, he, hd]
  refine ⟨hstep, ?_, ?_, ?_, by decide⟩
  · intro oracle m rest last v hv
    simp [groqModelLoop, hv]
  · intro oracle m rest last e he hd
    simp [groqModelLoop, he, hd]
  · intro oracle text htext hall
    obtain ⟨e1, he1, hd1, hr1, hq1⟩ := hall "llama-3.1-8b-instant" (by simp [groqModels])
    obtain ⟨e2, he2, hd2, hr2, hq2⟩ := hall "llama3-8b-8192" (by simp [groqModels])
    obtain ⟨e3, he3, hd3, hr3, hq3⟩ := hall "mixtral-8x7b-32768" (by simp [groqModels])
    obtain ⟨e4, he4, hd4, hr4, hq4⟩ := hall "gemma-7b-it" (by simp [groqModels])
    have hloop : groqModelLoop oracle groqModels none = Except.error e4 := by
      show groqModelLoop oracle ("llama-3.1-8b-instant" :: ["llama3-8b-8192",
        "mixtral-8x7b-32768", "gemma-7b-it"]) none = Except.error e4
      rw [hstep oracle _ _ _ _ he1 hd1, hstep oracle _ _ _ _ he2 hd2,
        hstep oracle _ _ _ _ he3 hd3, hstep oracle _ _ _ _ he4 hd4]
      rfl
    unfold extractWithGroq
    rw [if_neg htext, hloop]
    simp [groqRewrap, hr4, hq4, hd4]

/-- C2 witness: the amended theorem applied to an oracle whose every
reply is a decommission notice. -/
theorem C2_groq_fallback_witness :
    extractWithGroq "some invoice text"
        (fun _ => GroqReply.apiError "model_decommissioned") =
      Except.error
        "All Groq models are currently unavailable. Please try Gemini instead." :=
  C2_groq_fallback.2.2.2.1
    (fun _ => GroqReply.apiError "model_decommissioned") "some invoice text"
    (by decide)
    (fun m _ => ⟨"model_decommissioned", rfl, by decide, by decide, by decide⟩)

/-- C6 counterexample: a request for which the API key of the selected
backend is
absent is answered with HTTP 500 (`Configuration error`), not with the
400 the claim asserts for configuration errors. -/
theorem C6_counterexample :
    extractValidate (JVal.str "abc123") (JVal.str "gemini")
        ⟨false, true⟩ = some (500, "Configuration error") ∧
    (500 : ℕ) ≠ 400 :=
  ⟨rfl, by decide⟩

/-- C6 (amended): in `POST /extract`, bad-input requests (missing
`fileId`/`model`, or a `model` other than `"gemini"`/`"groq"`) are
answered 400, while a missing API key for the selected backend — still
checked only at call time — is answered 500 `Configuration error`; with
the key present the request proceeds past validation. -/
theorem C6_extract_statuses :
    (∀ (fileId model : JVal) (env : ExtractEnv),
        fileId.truthy = false ∨ model.truthy = false →
        extractValidate fileId model env = some (400, "Missing required fields")) ∧
    (∀ (fileId model : JVal) (env : ExtractEnv),
        fileId.truthy = true → model.truthy = true →
        isAllowedModel model = false →
        extractValidate fileId model env = some (400, "Invalid model")) ∧
    (∀ (fileId : JVal) (env : ExtractEnv), fileId.truthy = true →
        env.geminiKey = false →
        extractValidate fileId (JVal.str "gemini") env =
          some (500, "Configuration error")) ∧
    (∀ (fileId : JVal) (env : ExtractEnv), fileId.truthy = true →
        env.groqKey = false →
        extractValidate fileId (JVal.str "groq") env =
          some (500, "Configuration error")) ∧
    (∀ (fileId : JVal) (env : ExtractEnv), fileId.truthy = true →
        (env.geminiKey = true →
          extractValidate fileId (JVal.str "gemini") env = none) ∧
        (env.groqKey = true →
          extractValidate fileId (JVal.str "groq") env = none)) := by
  refine ⟨?_, ?_, ?_, ?_, ?_⟩
  · intro fileId model env h
    rcases h with h | h <;> simp [extractValidate, h]
  · intro fileId model env h1 h2 h3
    simp [extractValidate, h1, h2, h3]
  · intro fileId env h1 h2
    simp [extractValidate, h1, h2, isAllowedModel, jvalEqStr,
      show (JVal.str "gemini").truthy = true from rfl]
  · intro fileId env h1 h2
    cases hg : env.geminiKey <;>
      simp [extractValidate, h1, h2, hg, isAllowedModel, jvalEqStr,
        show (JVal.str "groq").truthy = true from rfl]
  · intro fileId env h1
    constructor
    · intro h2
      simp [extractValidate, h1, h2, isAllowedModel, jvalEqStr,
        show (JVal.str "gemini").truthy = true from rfl]
    · intro h2
      cases hg : env.geminiKey <;>
        simp [extractValidate, h1, h2, hg, isAllowedModel, jvalEqStr,
          show (JVal.str "groq").truthy = true from rfl]

/-- C6 witness: the amended theorem applied to a missing-Gemini-key
environment and to a bad model name. -/
theorem C6_extract_statuses_witness :
    extractValidate (JVal.str "f") (JVal.str "gemini") ⟨false, false⟩ =
      some (500, "Configuration error") ∧
    extractValidate (JVal.str "f") (JVal.str "gpt4") ⟨true, true⟩ =
      some (400, "Invalid model") ∧
    extractValidate (JVal.str "f") JVal.undef ⟨true, true⟩ =
      some (400, "Missing required fields") :=
  ⟨C6_extract_statuses.2.2.1 (JVal.str "f") ⟨false, false⟩ rfl rfl,
   C6_extract_statuses.2.1 (JVal.str "f") (JVal.str "gpt4") ⟨true, true⟩
     rfl rfl rfl,
   C6_extract_statuses.1 (JVal.str "f") JVal.undef ⟨true, true⟩ (Or.inr rfl)⟩

/-- C5: `POST /upload` accepts a PDF of exactly 25 MiB (25·1024·1024
bytes, the multer `fileSize` limit) with a 201, rejects any strictly
larger file with a 400 size error, and rejects a zero-byte buffer with
a 400. -/
theorem C5_upload_size_boundary (n : ℕ) (h : uploadSizeLimit < n) :
    uploadOutcome "application/pdf" (25 * 1024 * 1024) = UploadOutcome.accepted ∧
    uploadStatus (uploadOutcome "application/pdf" (25 * 1024 * 1024)) = 201 ∧
    uploadOutcome "application/pdf" n = UploadOutcome.rejectedTooLarge ∧
    uploadStatus (uploadOutcome "application/pdf" n) = 400 ∧
    uploadOutcome "application/pdf" 0 = UploadOutcome.rejectedEmpty ∧
    uploadStatus (uploadOutcome "application/pdf" 0) = 400 := by
  have hn : uploadOutcome "application/pdf" n = UploadOutcome.rejectedTooLarge := by
    simp only [uploadOutcome]
    rw [if_neg (by decide), if_pos h]
  refine ⟨by decide, by decide, hn, ?_, by decide, by decide⟩
  rw [hn]
  rfl

/-- C5 witness: the boundary theorem applied at one byte over the
limit. -/
theorem C5_upload_size_boundary_witness :
    uploadSizeLimit < 25 * 1024 * 1024 + 1 ∧
    uploadOutcome "application/pdf" (25 * 1024 * 1024 + 1) =
      UploadOutcome.rejectedTooLarge :=
  ⟨by decide, (C5_upload_size_boundary (25 * 1024 * 1024 + 1) (by decide)).2.2.1⟩

/-- C4 counterexample: a create payload with all four top-level fields
present but an empty `vendor.name` passes the route presence check and
is still rejected — the Mongoose schema validation behind
`invoice.save()` (required nonempty `vendor.name`) throws, so the route
answers 500 instead of persisting.  The backend therefore does
re-validate beyond the presence check, contradicting the claim. -/
theorem C4_counterexample :
    createInvoice (JVal.obj [("fileId", JVal.str "f"), ("fileName", JVal.str "doc.pdf"),
        ("vendor", JVal.obj [("name", JVal.str "")]),
        ("invoice", JVal.obj [("number", JVal.str "INV-1"),
          ("date", JVal.str "2024-01-01")])]) = CreateResult.serverError ∧
    createStatus CreateResult.serverError = 500 ∧
    ((JVal.obj [("fileId", JVal.str "f"), ("fileName", JVal.str "doc.pdf"),
        ("vendor", JVal.obj [("name", JVal.str "")]),
        ("invoice", JVal.obj [("number", JVal.str "INV-1"),
          ("date", JVal.str "2024-01-01")])]).getF "vendor").truthy = true :=
  ⟨by decide, rfl, by decide⟩

/-- C4 (amended): the route handler itself checks only JS truthiness of
the top-level `fileId`, `fileName`, `vendor`, `invoice` (400 on any
missing), but the persistence-layer schema validation additionally
requires `vendor.name`, `invoice.number` and `invoice.date` to be
present nonempty strings and every line-item field to be present (with
an empty-string numeric field counting as absent, since `castNumber`
maps it to `null`) — a payload that violates them is not persisted;
`save()` throws and the route answers 500. -/
theorem C4_create_validation :
    (∀ payload : JVal,
        (payload.getF "fileId").truthy = false ∨
        (payload.getF "fileName").truthy = false ∨
        (payload.getF "vendor").truthy = false ∨
        (payload.getF "invoice").truthy = false →
        createInvoice payload = CreateResult.badRequest) ∧
    (∀ payload : JVal,
        (payload.getF "fileId").truthy = true →
        (payload.getF "fileName").truthy = true →
        (payload.getF "vendor").truthy = true →
        (payload.getF "invoice").truthy = true →
        invoiceSchemaOk payload = true →
        createInvoice payload = CreateResult.created) ∧
    (∀ payload : JVal,
        (payload.getF "fileId").truthy = true →
        (payload.getF "fileName").truthy = true →
        (payload.getF "vendor").truthy = true →
        (payload.getF "invoice").truthy = true →
        invoiceSchemaOk payload = false →
        createInvoice payload = CreateResult.serverError) ∧
    (∀ vendor : JVal, vendor.getF "name" = JVal.str "" →
        vendorSchemaOk vendor = false) ∧
    (∀ inv : JVal, inv.getF "number" = JVal.str "" →
        invoiceDataSchemaOk inv = false) ∧
    (∀ inv : JVal, inv.getF "date" = JVal.str "" →
        invoiceDataSchemaOk inv = false) ∧
    (∀ item : JVal, item.getF "unitPrice" = JVal.str "" →
        lineItemSchemaOk item = false) := by
  refine ⟨?_, ?_, ?_, ?_, ?_, ?_, ?_⟩
  · intro payload h
    rcases h with h | h | h | h <;> simp [createInvoice, h]
  · intro payload h1 h2 h3 h4 hv
    simp [createInvoice, h1, h2, h3, h4, hv]
  · intro payload h1 h2 h3 h4 hv
    simp [createInvoice, h1, h2, h3, h4, hv]
  · intro vendor hname
    cases vendor <;> simp_all [vendorSchemaOk, requiredStringOk, castToString]
  · intro inv hnum
    cases inv <;> simp_all [invoiceDataSchemaOk, requiredStringOk, castToString]
  · intro inv hdate
    cases inv <;> simp_all [invoiceDataSchemaOk, requiredStringOk, castToString]
  · intro item hup
    simp [lineItemSchemaOk, hup,
      show requiredNumberOk (JVal.str "") = false from rfl]

/-- C4 witness: the amended theorem applied to a well-formed payload, a
payload with a missing top-level field, an empty `vendor.name`, and a
line item whose `unitPrice` is the empty string. -/
theorem C4_create_validation_witness :
    createInvoice (JVal.obj [("fileId", JVal.str "f"), ("fileName", JVal.str "n"),
        ("vendor", JVal.obj [("name", JVal.str "Acme")]),
        ("invoice", JVal.obj [("number", JVal.str "1"),
          ("date", JVal.str "2024-01-01")])]) = CreateResult.created ∧
    createInvoice (JVal.obj [("fileName", JVal.str "n")]) =
      CreateResult.badRequest ∧
    vendorSchemaOk (JVal.obj [("name", JVal.str "")]) = false ∧
    lineItemSchemaOk (JVal.obj [("description", JVal.str "widget"),
        ("unitPrice", JVal.str ""), ("quantity", JVal.num 1),
        ("total", JVal.num 0)]) = false :=
  ⟨C4_create_validation.2.1 _ rfl rfl rfl rfl (by decide),
   C4_create_validation.1 _ (Or.inl rfl),
   C4_create_validation.2.2.2.1 _ rfl,
   C4_create_validation.2.2.2.2.2.2 _ rfl⟩

/-- C7: in the invoice editor, editing `unitPrice` (resp. `quantity`) of
a line item with numeric fields sets that field to the new value and
recomputes the `total` of the same item as the product of the new value
and the existing other operand of the item; editing `total` only replaces
`total`; and every edit leaves all other line items untouched. -/
theorem C7_update_line_item (items : List FormLineItem) (i : ℕ)
    (h : i < items.length) (p u q : ℚ)
    (hu : (items.get ⟨i, h⟩).unitPrice = JVal.num u)
    (hq : (items.get ⟨i, h⟩).quantity = JVal.num q) :
    updateLineItem items (i : ℤ) LIField.unitPrice (JVal.num p) =
      items.set i { items.get ⟨i, h⟩ with
        unitPrice := JVal.num p, total := JVal.num (p * q) } ∧
    updateLineItem items (i : ℤ) LIField.quantity (JVal.num p) =
      items.set i { items.get ⟨i, h⟩ with
        quantity := JVal.num p, total := JVal.num (u * p) } ∧
    (∀ v, updateLineItem items (i : ℤ) LIField.total v =
      items.set i { items.get ⟨i, h⟩ with total := v }) ∧
    (∀ f v j, j ≠ i →
      (updateLineItem items (i : ℤ) f v).get? j = items.get? j) := by
  have hcond : ¬((i : ℤ) < 0 ∨ (items.length : ℤ) ≤ (i : ℤ)) := by
    rw [not_or]
    constructor
    · omega
    · rw [not_le]
      exact_mod_cast h
  have hmain : ∀ (f : LIField) (v : JVal), updateLineItem items (i : ℤ) f v =
      items.set i
        (match f with
         | LIField.unitPrice =>
           { setLIField (items.get ⟨i, h⟩) f v with
             total := JVal.num (numOr v 0 * numOr (items.get ⟨i, h⟩).quantity 0) }
         | LIField.quantity =>
           { setLIField (items.get ⟨i, h⟩) f v with
             total := JVal.num (numOr (items.get ⟨i, h⟩).unitPrice 0 * numOr v 0) }
         | _ => setLIField (items.get ⟨i, h⟩) f v) := by
    intro f v
    simp only [updateLineItem, if_neg hcond, Int.toNat_natCast, List.get?_eq_get h]
  refine ⟨?_, ?_, ?_, ?_⟩
  · rw [hmain LIField.unitPrice (JVal.num p), hq]
    simp [setLIField, numOr_num_zero]
  · rw [hmain LIField.quantity (JVal.num p), hu]
    simp [setLIField, numOr_num_zero]
  · intro v
    rw [hmain LIField.total v]
    rfl
  · intro f v j hj
    rw [hmain f v, List.get?_eq_getElem?, List.get?_eq_getElem?,
      List.getElem?_set_ne (fun hij => hj hij.symm)]

/-- C7 witness: the theorem applied to a concrete two-item list,
editing the unit price of the first item. -/
theorem C7_update_line_item_witness :
    updateLineItem
        [FormLineItem.mk (JVal.str "a") (JVal.num 2) (JVal.num 3) (JVal.num 6),
         FormLineItem.mk (JVal.str "b") (JVal.num 7) (JVal.num 1) (JVal.num 7)]
        (0 : ℤ) LIField.unitPrice (JVal.num 5) =
      [FormLineItem.mk (JVal.str "a") (JVal.num 5) (JVal.num 3) (JVal.num (5 * 3)),
       FormLineItem.mk (JVal.str "b") (JVal.num 7) (JVal.num 1) (JVal.num 7)] :=
  (C7_update_line_item
    [FormLineItem.mk (JVal.str "a") (JVal.num 2) (JVal.num 3) (JVal.num 6),
     FormLineItem.mk (JVal.str "b") (JVal.num 7) (JVal.num 1) (JVal.num 7)]
    0 (by decide) 5 2 3 rfl rfl).1

/-- C8: deletion is terminal and 404s exactly on absence.  With the
`_id` column of the store unique (as in MongoDB), `findByIdAndDelete`
returns the deleted document iff `findById` finds one; after a delete the
same id resolves to nothing (404 from `GET`), and deleting an absent id
returns not-found and leaves the store unchanged. -/
theorem C8_delete_terminal (id : String) (store : List StoredInvoice)
    (hnd : (store.map StoredInvoice.mid).Nodup) :
    getInvoice id (deleteInvoice id store).2 = none ∧
    getStatus id (deleteInvoice id store).2 = 404 ∧
    (deleteInvoice id store).1 = getInvoice id store ∧
    (getInvoice id store = none →
      deleteInvoice id store = (none, store) ∧ deleteStatus id store = 404) := by
  have hfind : ∀ s : List StoredInvoice, (s.map StoredInvoice.mid).Nodup →
      (s.find? (fun r => r.mid == id)).isSome = true →
      ((s.eraseP (fun r => r.mid == id)).find? (fun r => r.mid == id)) = none := by
    intro s
    induction s with
    | nil => intro _ hs; simp [List.find?] at hs
    | cons a rest ih =>
      intro hs _
      simp only [List.map_cons, List.nodup_cons] at hs
      by_cases ha : a.mid == id
      · rw [List.eraseP_cons, ha]
        show List.find? (fun r => r.mid == id) rest = none
        rw [List.find?_eq_none]
        intro x hx hxid
        refine hs.1 ?_
        have h1 : a.mid = id := beq_iff_eq.mp ha
        have h2 : x.mid = id := beq_iff_eq.mp hxid
        rw [h1, ← h2]
        exact List.mem_map_of_mem StoredInvoice.mid hx
      · have ha2 : (a.mid == id) = false := by simpa using ha
        rw [List.eraseP_cons, ha2]
        show List.find? (fun r => r.mid == id) (a :: rest.eraseP (fun r => r.mid == id)) = none
        rw [List.find?_cons_of_neg _ (by simpa using ha)]
        by_cases hrest : (rest.find? (fun r => r.mid == id)).isSome = true
        · exact ih hs.2 hrest
        · rw [Option.not_isSome_iff_eq_none] at hrest
          rw [List.eraseP_of_forall_not (by
            intro x hx
            have := List.find?_eq_none.mp hrest x hx
            simpa using this)]
          exact hrest
  have hafter : getInvoice id (deleteInvoice id store).2 = none := by
    unfold deleteInvoice getInvoice
    cases hf : store.find? (fun r => r.mid == id) with
    | none =>
      simp only [hf]
    | some r =>
      simpa [hf] using hfind store hnd (by simp [hf])
  refine ⟨hafter, by simp [getStatus, hafter], ?_, ?_⟩
  · unfold deleteInvoice getInvoice
    cases hf : store.find? (fun r => r.mid == id) <;> simp [hf]
  · intro habsent
    unfold getInvoice at habsent
    constructor
    · unfold deleteInvoice
      rw [habsent]
    · unfold deleteStatus deleteInvoice
      rw [habsent]
      rfl

/-- C8 witness: the theorem applied to a two-record store and the id of
its first record. -/
theorem C8_delete_terminal_witness :
    getInvoice "a" (deleteInvoice "a"
      [StoredInvoice.mk "a" "Acme" "INV-1" 1,
       StoredInvoice.mk "b" "Globex" "INV-2" 2]).2 = none :=
  (C8_delete_terminal "a"
    [StoredInvoice.mk "a" "Acme" "INV-1" 1,
     StoredInvoice.mk "b" "Globex" "INV-2" 2] (by decide)).1

theorem rxMatchHere_literal (pat : List Char)
    (hlit : pat.all literalPatChar = true) :
    ∀ (s : List Char) (fuel : ℕ), pat.length < fuel →
      rxMatchHere fuel pat s = listStartsWith pat s := by
  induction pat with
  | nil =>
    intro s fuel hf
    cases fuel with
    | zero => omega
    | succ f => rfl
  | cons p ps ih =>
    intro s fuel hf
    cases fuel with
    | zero => omega
    | succ f =>
      simp only [List.all_cons, Bool.and_eq_true] at hlit
      have hp : (p == '.') = false := by
        have h1 := hlit.1
        simp only [literalPatChar, Bool.and_eq_true, Bool.not_eq_true'] at h1
        exact h1.2
      have hstep : rxMatchHere (f + 1) (p :: ps) s =
          (match s with
           | [] => false
           | c :: s1 => rxCharMatch p c && rxMatchHere f ps s1) := by
        rcases ps with _ | ⟨q, ps2⟩
        · rw [rxMatchHere.eq_def]
        · have hq : literalPatChar q = true := by
            have h2 := hlit.2
            simp only [List.all_cons, Bool.and_eq_true] at h2
            exact h2.1
          simp only [literalPatChar, rxAtomChar, Bool.and_eq_true,
            Bool.not_eq_true', Bool.or_eq_false_iff] at hq
          rw [rxMatchHere.eq_def]
          split
          all_goals simp_all
      rw [hstep]
      cases s with
      | nil => rfl
      | cons c s1 =>
        show (rxCharMatch p c && rxMatchHere f ps s1) =
          (p == c && listStartsWith ps s1)
        rw [ih hlit.2 s1 f (by simp only [List.length_cons] at hf; omega)]
        simp [rxCharMatch, hp]

theorem rxSearch_literal (pat : List Char)
    (hlit : pat.all literalPatChar = true) (s : List Char) :
    rxSearch pat s = listInfix pat s := by
  induction s with
  | nil =>
    show rxMatchHere (rxFuel pat []) pat [] = listStartsWith pat []
    refine rxMatchHere_literal pat hlit [] _ ?_
    simp only [rxFuel, List.length_nil]
    omega
  | cons c s1 ih =>
    show (rxMatchHere (rxFuel pat (c :: s1)) pat (c :: s1) || rxSearch pat s1) =
      (listStartsWith pat (c :: s1) || listInfix pat s1)
    have hfuel : pat.length < rxFuel pat (c :: s1) := by
      have h1 : (pat.length + 2) * 3 ≤
          (pat.length + 2) * (2 * (c :: s1).length + 3) :=
        Nat.mul_le_mul_left _ (by omega)
      simp only [rxFuel]
      omega
    rw [rxMatchHere_literal pat hlit _ _ hfuel, ih]

